import Mathlib

/-!
Verification of the summary API routes of the Plant-Phenology-State-Detector
repository: the batched flower-summary route, the batched biome-summary route,
the single-entity pest-summary route and the single-entity flower-summary
route.  Each TypeScript function is embedded as an executable Lean definition;
the route handlers become pure functions of the request, the cache snapshot,
the configured API key and the outcome of the single upstream fetch.  JS
strings are Lean strings, JS `undefined`-able strings are `Option String`,
and JS objects used as string-keyed records are association lists.
-/

namespace PlantPhenology

/-! ### JavaScript value helpers -/

/-- Whitespace test matching the characters the JS regexes `\s` and
`String.prototype.trim` treat as whitespace in the source's ASCII-only
uses: space, tab, newline, carriage return, vertical tab, form feed. -/
def isWsChar (c : Char) : Bool :=
  c = ' ' ∨ c = '\t' ∨ c = '\n' ∨ c = '\r' ∨ c = '\x0b' ∨ c = '\x0c'

/-- Embedding of JS `String.prototype.trim` (drop whitespace at both ends). -/
def jsTrim (s : String) : String :=
  ⟨((s.data.dropWhile isWsChar).reverse.dropWhile isWsChar).reverse⟩

/-- Embedding of JS `String.prototype.toLowerCase`; the source only
lower-cases ASCII identifiers, where `Char.toLower` agrees with JS. -/
def jsLower (s : String) : String :=
  ⟨s.data.map Char.toLower⟩

/-- Embedding of the JS expression `a || d` for a possibly-`undefined`
string `a` and a string default `d`: `undefined` and `""` are falsy. -/
def jsOr (a : Option String) (d : String) : String :=
  match a with
  | none => d
  | some s => if s = "" then d else s

/-- Embedding of the JS expression `a || b` where both operands are
possibly-`undefined` strings (used for the chain `a || b || d`). -/
def jsOrOpt (a b : Option String) : Option String :=
  match a with
  | none => b
  | some s => if s = "" then b else some s

/-- Embedding of JS template-literal interpolation of a possibly-`undefined`
string: `undefined` prints as the text `"undefined"`. -/
def jsStr (a : Option String) : String :=
  match a with
  | none => "undefined"
  | some s => s

/-- Embedding of the JS truthiness test `!x` on a possibly-`undefined`
string: `undefined` and the empty string are falsy. -/
def isFalsy (a : Option String) : Bool :=
  match a with
  | none => true
  | some s => s == ""

/-! ### JS objects as string-keyed records -/

/-- A JS object used as a string-keyed record (`Record<string, T>`),
embedded as an association list in property insertion order. -/
abbrev Obj (α : Type) : Type := List (String × α)

/-- Property read `o[k]`: the value at the first matching key, if any. -/
def Obj.get {α : Type} : Obj α → String → Option α
  | [], _ => none
  | (k', v) :: rest, k => if k' = k then some v else Obj.get rest k

/-- Property write `o[k] = v` (also JS `Map.prototype.set`): an existing
key keeps its position and is overwritten, a new key is appended. -/
def Obj.set {α : Type} : Obj α → String → α → Obj α
  | [], k, v => [(k, v)]
  | (k', v') :: rest, k, v =>
    if k' = k then (k, v) :: rest else (k', v') :: Obj.set rest k v

/-- The keys of an object, in insertion order. -/
def Obj.keys {α : Type} (o : Obj α) : List String := o.map Prod.fst

/-- Embedding of `Object.assign(t, s)`: every own property of `s` is
written into `t`, in key order. -/
def Obj.assign {α : Type} (t s : Obj α) : Obj α :=
  s.foldl (fun acc kv => Obj.set acc kv.1 kv.2) t

/-! ### Key normalization -/

/-- Embedding of `makeKey` from `src/app/api/pest-summary/route.ts`
lines 25-29:
`(pest_name || 'unknown').trim().toLowerCase()` joined by `"::"` with
`(biome_name || 'unknown').trim().toLowerCase()`. -/
def makeKey (pest_name biome_name : Option String) : String :=
  let name := jsLower (jsTrim (jsOr pest_name "unknown"))
  let biome := jsLower (jsTrim (jsOr biome_name "unknown"))
  name ++ "::" ++ biome

/-- Embedding of `makeKey` from `src/app/api/flower-summary/route.ts`
lines 44-48 (same shape in the single-entity flower route):
`(scientific_name || common_name || 'unknown').trim().toLowerCase()`
joined by `"::"` with `(biome_code || 'unknown').trim().toLowerCase()`. -/
def makeKey3 (scientific_name common_name biome_code : Option String) : String :=
  let name := jsLower (jsTrim (jsOr (jsOrOpt scientific_name common_name) "unknown"))
  let biome := jsLower (jsTrim (jsOr biome_code "unknown"))
  name ++ "::" ++ biome

/-! ### Markdown fence stripping -/

/-- The backquote character. -/
def fenceChar : Char := Char.ofNat 96

/-- Three backquotes, the markdown fence delimiter. -/
def fence3 : List Char := [fenceChar, fenceChar, fenceChar]

/-- All characters are whitespace. -/
def allWs (l : List Char) : Bool := l.all isWsChar

/-- The first alternative of the regex
`/^```json\s*|```\s*$/g`: anchored at position 0 only (no `m` flag), it
removes a leading `"```json"` together with the following whitespace run. -/
def stripOpenFence (l : List Char) : List Char :=
  if l.take 7 = "```json".data then (l.drop 7).dropWhile isWsChar else l

/-- The second alternative of the regex `/^```json\s*|```\s*$/g`: scanning
left to right, it removes the first occurrence of three backquotes that is
followed only by whitespace up to the end of the string, together with that
trailing whitespace (`$` is the very end of the input, there is no `m` flag). -/
def stripCloseFence : List Char → List Char
  | [] => []
  | c :: rest =>
    if (c :: rest).take 3 = fence3 ∧ allWs ((c :: rest).drop 3) then []
    else c :: stripCloseFence rest

/-- Embedding of the response-cleaning expression
`text.replace(/^```json\s*|```\s*$/g, '').trim()` shared by all four
routes (e.g. `src/app/api/flower-summary/route.ts` line 151). -/
def cleanedText (text : String) : String :=
  jsTrim ⟨stripCloseFence (stripOpenFence text.data)⟩

/-! ### Cache entries and the cache store read -/

/-- A flower-summary cache entry as written by the batch flower route and
the single-entity flower route; entries read back from disk may lack any
field, so every field is optional (`cache[key]?.summary` is only trusted
after a truthiness check). -/
structure FlowerEntry where
  summary : Option String
  scientific_name : Option String
  common_name : Option String
  biome_name : Option String
  modelUsed : Option String
  generatedAt : Option String
deriving DecidableEq

/-- A biome-summary cache entry (`{ summary, modelUsed }`). -/
structure BiomeEntry where
  summary : Option String
  modelUsed : Option String
deriving DecidableEq

/-- A pest-summary cache entry. -/
structure PestEntry where
  summary : Option String
  pest_name : Option String
  biome_name : Option String
  modelUsed : Option String
  generatedAt : Option String
deriving DecidableEq

/-- Outcome of the `fs.readFile` call inside `readCache`: file contents,
a not-found fault (`ENOENT`), or any other I/O fault. -/
inductive FsRead where
  | content (text : String)
  | enoent
  | ioError (message : String)
deriving DecidableEq

/-- Embedding of `readCache` (identical in all four routes, e.g.
`src/app/api/flower-summary/route.ts` lines 28-36): parse the file
contents (an empty file parses as `'\x7b\x7d'`), return the empty record on
`ENOENT`, and re-throw every other fault.  `parseJson` stands for
`JSON.parse`, which may itself throw (a `SyntaxError` has no `code`
field, so it is re-thrown by the catch). -/
def readCache {α : Type} (parseJson : String → Except String (Obj α)) :
    FsRead → Except String (Obj α)
  | FsRead.content text => parseJson (if text = "" then "\x7b\x7d" else text)
  | FsRead.enoent => Except.ok []
  | FsRead.ioError message => Except.error message

/-! ### Claim C2: key normalization -/

/-- C2 counterexample: the claim says a blank (whitespace-only) input is
replaced with the literal token `"unknown"`, and that any two inputs whose
fields are equal after trimming and lower-casing normalize identically.
Both fail at the input `"   "`: JS `||` only replaces falsy values, and a
whitespace-only string is truthy, so it is trimmed to the empty segment
instead of becoming `"unknown"`, and it disagrees with the field-equal
input `""`. -/
theorem makeKey_blank_input_cex :
    jsLower (jsTrim "   ") = jsLower (jsTrim "") ∧
    makeKey (some "   ") (some "Cfa") ≠ makeKey (some "") (some "Cfa") ∧
    makeKey (some "   ") (some "Cfa") = "::cfa" := by decide

/-- C2 (amended): the key normalizer is pure and total; any two calls whose
fields are non-empty strings equal after trimming and lower-casing produce
identical output; absent or empty-string inputs (the JS-falsy cases) are
replaced with the literal token `"unknown"`; and the output always has the
shape `"<name>::<context>"`.  Whitespace-only inputs are not replaced: they
are trimmed to an empty segment. -/
theorem makeKey_normalization_amended :
    (∀ s₁ s₂ c₁ c₂ : String, s₁ ≠ "" → s₂ ≠ "" → c₁ ≠ "" → c₂ ≠ "" →
      jsLower (jsTrim s₁) = jsLower (jsTrim s₂) →
      jsLower (jsTrim c₁) = jsLower (jsTrim c₂) →
      makeKey (some s₁) (some c₁) = makeKey (some s₂) (some c₂)) ∧
    makeKey none none = "unknown::unknown" ∧
    makeKey (some "") (some "") = "unknown::unknown" ∧
    (∀ a b : Option String, ∃ n c : String, makeKey a b = n ++ "::" ++ c) := by
  refine ⟨?_, by decide, by decide, fun a b => ⟨_, _, rfl⟩⟩
  intro s₁ s₂ c₁ c₂ h1 h2 h3 h4 he1 he2
  simp only [makeKey, jsOr, if_neg h1, if_neg h2, if_neg h3, if_neg h4]
  rw [he1, he2]

/-- C2 witness: the spec's own example instance of the congruence law. -/
theorem makeKey_normalization_amended_witness :
    makeKey (some "Rosa Damascena") (some "Cfa") =
      makeKey (some "  rosa damascena  ") (some "CFA") :=
  makeKey_normalization_amended.1 _ _ _ _ (by decide) (by decide) (by decide)
    (by decide) (by decide) (by decide)

/-! ### Claim C7: cache store read -/

/-- C7: the cache-store read returns the empty mapping when no persisted
store exists (`ENOENT` is not an error) and re-raises any other I/O fault
to the caller, for every possible behaviour of the JSON parser. -/
theorem readCache_missing_and_fault :
    (∀ parseJson : String → Except String (Obj FlowerEntry),
      readCache parseJson FsRead.enoent = Except.ok []) ∧
    (∀ (parseJson : String → Except String (Obj FlowerEntry)) (message : String),
      readCache parseJson (FsRead.ioError message) = Except.error message) :=
  ⟨fun _ => rfl, fun _ _ => rfl⟩

/-! ### Claim C8: fence stripping -/

/-- C8 counterexample: the claim allows leading whitespace before the
opening fence, but the regex alternative `^```json\s*` is anchored at
position 0, so with a leading space the opening fence survives cleaning and
the cleaned text is not the bare object text (and cannot parse as JSON). -/
theorem cleanedText_leading_ws_cex :
    cleanedText " ```json\n\x7b\"a::b\":\"text\"\x7d\n```" =
      "```json\n\x7b\"a::b\":\"text\"\x7d" ∧
    cleanedText " ```json\n\x7b\"a::b\":\"text\"\x7d\n```" ≠
      "\x7b\"a::b\":\"text\"\x7d" := by decide

/-- C8 (amended): a markdown-fenced response body, possibly with trailing
whitespace (but not leading whitespace), cleans to exactly the bare object
text, and the bare text cleans to itself — hence both parse identically. -/
theorem cleanedText_fence_round_trip_amended :
    cleanedText "```json\n\x7b\"a::b\":\"text\"\x7d\n```" =
      "\x7b\"a::b\":\"text\"\x7d" ∧
    cleanedText "```json\n\x7b\"a::b\":\"text\"\x7d\n```  \n" =
      "\x7b\"a::b\":\"text\"\x7d" ∧
    cleanedText "\x7b\"a::b\":\"text\"\x7d" = "\x7b\"a::b\":\"text\"\x7d" := by decide

/-! ### Batch flower route: data model -/

/-- A species record of the batch flower request
(`src/app/api/flower-summary/route.ts` lines 13-16); the handler never
validates presence, so both fields may be absent at runtime. -/
structure Species where
  scientific_name : Option String
  common_name : Option String
deriving DecidableEq

/-- Climate attributes; carried only into the prompt payload, never
computed with (JS numbers modelled as integers). -/
structure ClimateData where
  temperature : Int
  precipitation : Int
  radiation : Int
deriving DecidableEq

/-- A biome record of the batch flower request
(`src/app/api/flower-summary/route.ts` lines 17-23); `pests` is untyped
context carried only into the prompt, modelled opaquely. -/
structure BiomeData where
  biome : String
  biome_name : String
  climate_data : ClimateData
  species : List Species
  pests : List String
deriving DecidableEq

/-- Truthiness of `cache[key]?.summary` for a flower cache entry. -/
def flowerHit (e : Option FlowerEntry) : Bool :=
  match e with
  | some en => match en.summary with
    | some s => s != ""
    | none => false
  | none => false

/-- The summary string of a cache entry, read only after `flowerHit`. -/
def flowerSummaryOf (e : Option FlowerEntry) : String :=
  match e with
  | some en => match en.summary with
    | some s => s
    | none => ""
  | none => ""

/-- A species paired with its biome, the value type of the
`keyToDataMap` side-table. -/
abbrev SpeciesCtx : Type := Species × BiomeData

/-! ### Batch flower route: partitioning (route.ts lines 62-82) -/

/-- The inner loop of step 1 of the batch flower `POST`: for each species
of a biome compute its key, record it in `keyToDataMap`, copy a truthy
cached summary into `finalSummaries`, and otherwise push the species onto
`speciesToFetch` (in request order). -/
def partSpecies (cache : Obj FlowerEntry) (b : BiomeData) :
    List Species → Obj String → Obj SpeciesCtx →
    Obj String × Obj SpeciesCtx × List Species
  | [], fs, k2d => (fs, k2d, [])
  | s :: rest, fs, k2d =>
    let key := makeKey3 s.scientific_name s.common_name (some b.biome)
    let k2d' := Obj.set k2d key (s, b)
    if flowerHit (Obj.get cache key) then
      partSpecies cache b rest (Obj.set fs key (flowerSummaryOf (Obj.get cache key))) k2d'
    else
      let res := partSpecies cache b rest fs k2d'
      (res.1, res.2.1, s :: res.2.2)

/-- The outer loop of step 1 of the batch flower `POST`: a biome is pushed
onto `biomesToFetch` (with its species list replaced by the uncached ones)
only when some of its species still need summaries. -/
def partBiomes (cache : Obj FlowerEntry) :
    List BiomeData → Obj String → Obj SpeciesCtx →
    Obj String × Obj SpeciesCtx × List BiomeData
  | [], fs, k2d => (fs, k2d, [])
  | b :: rest, fs, k2d =>
    let res := partSpecies cache b b.species fs k2d
    let rec2 := partBiomes cache rest res.1 res.2.1
    if res.2.2.length > 0 then
      (rec2.1, rec2.2.1, { b with species := res.2.2 } :: rec2.2.2)
    else
      rec2

/-! ### Batch flower route: fallback synthesis (route.ts lines 89-110, 191-208) -/

/-- The JS expression `species.common_name || species.scientific_name ||
'This plant'` used by both fallback loops. -/
def namePart (s : Species) : String :=
  jsOr (jsOrOpt s.common_name s.scientific_name) "This plant"

/-- The deterministic no-API-key fallback sentence (route.ts line 95). -/
def noKeySummary (s : Species) (b : BiomeData) : String :=
  namePart s ++ " is documented in the " ++ b.biome_name ++
    " biome, where it adapts to local conditions."

/-- The deterministic all-models-failed fallback sentence (route.ts line 197). -/
def genFailSummary (s : Species) (b : BiomeData) : String :=
  namePart s ++ " is a species found in the " ++ b.biome_name ++
    " biome. Its specific characteristics depend on local climate and soil conditions."

/-- The inner species loop shared (up to the sentence template and
provenance tag) by the two fallback blocks of the batch flower `POST`:
write the template sentence into both `finalSummaries` and the cache. -/
def fillSpecies (mk : Species → BiomeData → String) (tag now : String) (b : BiomeData) :
    List Species → Obj String → Obj FlowerEntry → Obj String × Obj FlowerEntry
  | [], fs, c => (fs, c)
  | s :: rest, fs, c =>
    let key := makeKey3 s.scientific_name s.common_name (some b.biome)
    let fb := mk s b
    fillSpecies mk tag now b rest (Obj.set fs key fb)
      (Obj.set c key
        ⟨some fb, s.scientific_name, s.common_name, some b.biome_name, some tag, some now⟩)

/-- The outer biome loop of the two fallback blocks. -/
def fillBiomes (mk : Species → BiomeData → String) (tag now : String) :
    List BiomeData → Obj String → Obj FlowerEntry → Obj String × Obj FlowerEntry
  | [], fs, c => (fs, c)
  | b :: rest, fs, c =>
    let res := fillSpecies mk tag now b b.species fs c
    fillBiomes mk tag now rest res.1 res.2

/-! ### Generation client (route.ts lines 127-168) -/

/-- Outcome of one `fetch` to the generation endpoint, as observed by the
handler: a non-success HTTP status (carrying the classified error
message), a successful response (carrying the extracted candidate text,
`''` when the payload lacks it), or a thrown network error. -/
inductive FetchOutcome where
  | httpError (message : String)
  | success (text : String)
  | networkThrow (message : String)
deriving DecidableEq

/-- The candidate model list of the batch flower route (route.ts line 128). -/
def flowerModels : List String := ["gemini-2.5-flash-lite"]

/-- Embedding of the candidate-model loop of the batch flower `POST`
(route.ts lines 134-168).  `parse` stands for `JSON.parse` on the cleaned
text.  Returns the first successful structured result with the model that
produced it, the last classified error message, and the number of network
calls issued. -/
def tryModels (parse : String → Except String (Obj String))
    (fetch : String → FetchOutcome) :
    List String → Option String →
    Option (Obj String × String) × Option String × Nat
  | [], lastError => (none, lastError, 0)
  | m :: rest, lastError =>
    match fetch m with
    | FetchOutcome.httpError msg =>
      let r := tryModels parse fetch rest (some msg)
      (r.1, r.2.1, r.2.2 + 1)
    | FetchOutcome.networkThrow msg =>
      let r := tryModels parse fetch rest (some msg)
      (r.1, r.2.1, r.2.2 + 1)
    | FetchOutcome.success text =>
      let cleaned := cleanedText text
      if cleaned != "" then
        match parse cleaned with
        | Except.ok s => (some (s, m), lastError, 1)
        | Except.error e =>
          let r := tryModels parse fetch rest
            (some ("Failed to parse JSON response from model: " ++ e))
          (r.1, r.2.1, r.2.2 + 1)
      else
        let r := tryModels parse fetch rest (some "Empty response from Gemini")
        (r.1, r.2.1, r.2.2 + 1)

/-! ### Batch flower route: response merging and the handler -/

/-- Embedding of the merge loop of step 5 (route.ts lines 174-186): for
every key of the structured result that is present in the side-table,
write a fresh cache entry; keys absent from the side-table leave the
cache untouched. -/
def mergeSummaries (k2d : Obj SpeciesCtx) (modelUsed now : String) :
    List (String × String) → Obj FlowerEntry → Obj FlowerEntry
  | [], c => c
  | (key, v) :: rest, c =>
    match Obj.get k2d key with
    | some d =>
      mergeSummaries k2d modelUsed now rest
        (Obj.set c key
          ⟨some v, d.1.scientific_name, d.1.common_name, some d.2.biome_name,
            some modelUsed, some now⟩)
    | none => mergeSummaries k2d modelUsed now rest c

/-- The JSON body of a batch route response. -/
structure BatchResponse where
  status : Nat
  summaries : Obj String
  model : Option String
  error : Option String
deriving DecidableEq

/-- One run of a batch handler: the response sent, the cache snapshots
written (in order), and the number of network calls issued. -/
structure Run (ε : Type) where
  response : BatchResponse
  cacheWrites : List (Obj ε)
  netCalls : Nat
deriving DecidableEq

/-- Embedding of the batch flower `POST`
(`src/app/api/flower-summary/route.ts` lines 51-215) as a pure function of
the configured API key, the parsed request body, the cache snapshot read
at the start, the fetch behaviour, the `JSON.parse` behaviour, and the
current timestamp. -/
def flowerPost (apiKey : Option String) (requestData : List BiomeData)
    (cache : Obj FlowerEntry) (fetch : String → FetchOutcome)
    (parse : String → Except String (Obj String)) (now : String) :
    Run FlowerEntry :=
  let part := partBiomes cache requestData [] []
  let finalSummaries := part.1
  let keyToDataMap := part.2.1
  let biomesToFetch := part.2.2
  if biomesToFetch.length = 0 then
    ⟨⟨200, finalSummaries, some "cache", none⟩, [], 0⟩
  else if isFalsy apiKey then
    let filled := fillBiomes noKeySummary "fallback/no-key" now biomesToFetch finalSummaries cache
    ⟨⟨200, filled.1, some "fallback/no-key", none⟩, [filled.2], 0⟩
  else
    let gen := tryModels parse fetch flowerModels none
    match gen.1 with
    | some (newSummaries, modelUsed) =>
      let fs := Obj.assign finalSummaries newSummaries
      let c := mergeSummaries keyToDataMap modelUsed now newSummaries cache
      ⟨⟨200, fs, some modelUsed, none⟩, [c], gen.2.2⟩
    | none =>
      let filled := fillBiomes genFailSummary "fallback/generator-failed" now
        biomesToFetch finalSummaries cache
      ⟨⟨200, filled.1, some "fallback/generator-failed", gen.2.1⟩, [filled.2], gen.2.2⟩

/-! ### Batch biome route (`src/app/api/biome-summary/route.ts`) -/

/-- A species record of the biome-summary request (line 15). -/
structure BSpecies where
  common_name : String
deriving DecidableEq

/-- A pest record of the biome-summary request (line 16). -/
structure BPest where
  common_name_pest : String
deriving DecidableEq

/-- A biome record of the biome-summary request (lines 11-17). -/
structure BBiome where
  biome : String
  biome_name : String
  climate_data : ClimateData
  species : List BSpecies
  pests : List BPest
deriving DecidableEq

/-- Truthiness of `cache[biome.biome]?.summary` for a biome cache entry. -/
def biomeHit (e : Option BiomeEntry) : Bool :=
  match e with
  | some en => match en.summary with
    | some s => s != ""
    | none => false
  | none => false

/-- The summary string of a biome cache entry, read only after `biomeHit`. -/
def biomeSummaryOf (e : Option BiomeEntry) : String :=
  match e with
  | some en => match en.summary with
    | some s => s
    | none => ""
  | none => ""

/-- The deterministic no-API-key biome fallback sentence (line 57). -/
def biomeNoKeySummary (b : BBiome) : String :=
  "The " ++ b.biome_name ++
    " biome is characterized by its distinct climate patterns. It supports a variety of plant species, including " ++
    String.intercalate ", " ((b.species.take 2).map BSpecies.common_name) ++
    ", and is home to pests such as " ++
    String.intercalate "" ((b.pests.take 1).map BPest.common_name_pest) ++ "."

/-- The cache-hit loop of the biome `POST` (lines 44-48): copy every
already-cached summary into `finalSummaries`. -/
def biomeCachedFill (cache : Obj BiomeEntry) :
    List BBiome → Obj String → Obj String
  | [], fs => fs
  | b :: rest, fs =>
    if biomeHit (Obj.get cache b.biome) then
      biomeCachedFill cache rest (Obj.set fs b.biome (biomeSummaryOf (Obj.get cache b.biome)))
    else
      biomeCachedFill cache rest fs

/-- The no-API-key loop of the biome `POST` (lines 56-60). -/
def biomeFillNoKey :
    List BBiome → Obj String → Obj BiomeEntry → Obj String × Obj BiomeEntry
  | [], fs, c => (fs, c)
  | b :: rest, fs, c =>
    let fb := biomeNoKeySummary b
    biomeFillNoKey rest (Obj.set fs b.biome fb)
      (Obj.set c b.biome ⟨some fb, some "fallback/no-key"⟩)

/-- The merge loop of the biome `POST` (lines 97-99): every key of the
structured result is written to the cache, with no side-table filter. -/
def biomeMerge : List (String × String) → Obj BiomeEntry → Obj BiomeEntry
  | [], c => c
  | (k, v) :: rest, c =>
    biomeMerge rest (Obj.set c k ⟨some v, some "gemini-2.5-flash-lite"⟩)

/-- Embedding of the batch biome `POST`
(`src/app/api/biome-summary/route.ts` lines 35-107).  Unlike the flower
route there is no candidate-model loop and no failure fallback: a non-ok
HTTP status throws the response text, and a `JSON.parse` failure throws,
both caught by the outer handler which answers with a status-500 error
body. -/
def biomePost (apiKey : Option String) (requestData : List BBiome)
    (cache : Obj BiomeEntry) (fetch : FetchOutcome)
    (parse : String → Except String (Obj String)) : Run BiomeEntry :=
  let biomesToFetch := requestData.filter (fun b => !(biomeHit (Obj.get cache b.biome)))
  let finalSummaries := biomeCachedFill cache requestData []
  if biomesToFetch.length = 0 then
    ⟨⟨200, finalSummaries, some "cache", none⟩, [], 0⟩
  else if isFalsy apiKey then
    let filled := biomeFillNoKey biomesToFetch finalSummaries cache
    ⟨⟨200, filled.1, some "fallback/no-key", none⟩, [filled.2], 0⟩
  else
    match fetch with
    | FetchOutcome.httpError body => ⟨⟨500, [], none, some body⟩, [], 1⟩
    | FetchOutcome.networkThrow msg => ⟨⟨500, [], none, some msg⟩, [], 1⟩
    | FetchOutcome.success text =>
      match parse (cleanedText text) with
      | Except.error e => ⟨⟨500, [], none, some e⟩, [], 1⟩
      | Except.ok newSummaries =>
        let fs := Obj.assign finalSummaries newSummaries
        let c := biomeMerge newSummaries cache
        ⟨⟨200, fs, none, none⟩, [c], 1⟩

/-! ### Single-entity routes -/

/-- The JSON body of a single-entity route response. -/
structure SingleResponse where
  status : Nat
  summary : Option String
  cached : Bool
  error : Option String
deriving DecidableEq

/-- One run of a single-entity handler. -/
structure SingleRun (ε : Type) where
  response : SingleResponse
  cacheWrites : List (Obj ε)
  netCalls : Nat
deriving DecidableEq

/-- Truthiness of `cache[key]?.summary` for a pest cache entry. -/
def pestHit (e : Option PestEntry) : Bool :=
  match e with
  | some en => match en.summary with
    | some s => s != ""
    | none => false
  | none => false

/-- The summary string of a pest cache entry, read only after `pestHit`. -/
def pestSummaryOf (e : Option PestEntry) : String :=
  match e with
  | some en => match en.summary with
    | some s => s
    | none => ""
  | none => ""

/-- Embedding of the pest `POST`
(`src/app/api/pest-summary/route.ts` lines 31-107).  The identity check on
lines 36-38 runs before the cache read, any generation and any write.
`parse` models `JSON.parse` followed by the `typeof parsed.summary`
check: `ok (some s)` is an object whose `summary` is the string `s`,
`ok none` is a parse success without a string `summary` field; both the
parse failure and the missing-field case surface as the same thrown
message. -/
def pestPost (apiKey : Option String) (pest_name biome_name : Option String)
    (cache : Obj PestEntry) (fetch : FetchOutcome)
    (parse : String → Except String (Option String)) (now : String) :
    SingleRun PestEntry :=
  if isFalsy pest_name || isFalsy biome_name then
    ⟨⟨400, none, false, some "Missing pest_name or biome_name"⟩, [], 0⟩
  else
    let key := makeKey pest_name biome_name
    if pestHit (Obj.get cache key) then
      ⟨⟨200, some (pestSummaryOf (Obj.get cache key)), true, none⟩, [], 0⟩
    else if isFalsy apiKey then
      let fallback := jsStr pest_name ++ " is a known pest in the " ++ jsStr biome_name ++
        " biome. Control methods should be considered based on local guidelines."
      ⟨⟨200, some fallback, false, none⟩,
        [Obj.set cache key ⟨some fallback, none, none, some "fallback/no-key", none⟩], 0⟩
    else
      match fetch with
      | FetchOutcome.httpError body =>
        ⟨⟨500, none, false, some ("API Error: " ++ body)⟩, [], 1⟩
      | FetchOutcome.networkThrow msg =>
        ⟨⟨500, none, false, some msg⟩, [], 1⟩
      | FetchOutcome.success text =>
        match parse (cleanedText text) with
        | Except.error _ =>
          ⟨⟨500, none, false, some "AI returned a malformed response."⟩, [], 1⟩
        | Except.ok none =>
          ⟨⟨500, none, false, some "AI returned a malformed response."⟩, [], 1⟩
        | Except.ok (some s) =>
          ⟨⟨200, some s, false, none⟩,
            [Obj.set cache key
              ⟨some s, pest_name, biome_name, some "gemini-2.5-flash-lite", some now⟩], 1⟩

/-- Embedding of the single-entity flower `POST` (the unnamed source file
`src/unnamed/part_001`, lines 31-95).  Note: unlike the pest route it
performs no validation of the identity fields; absent fields flow into
`makeKey` (which substitutes `"unknown"`) and into the fallback template
(where `undefined` is interpolated as text).  `parse` models
`JSON.parse(cleanedText).summary`, whose result may be `undefined`
(`ok none`) — the handler stores and returns it unchecked. -/
def flowerSinglePost (apiKey : Option String)
    (scientific_name common_name biome_name : Option String)
    (cache : Obj FlowerEntry) (fetch : FetchOutcome)
    (parse : String → Except String (Option String)) (now : String) :
    SingleRun FlowerEntry :=
  let key := makeKey3 scientific_name common_name biome_name
  if flowerHit (Obj.get cache key) then
    ⟨⟨200, some (flowerSummaryOf (Obj.get cache key)), true, none⟩, [], 0⟩
  else if isFalsy apiKey then
    let np := jsOr (jsOrOpt scientific_name common_name) "This plant"
    let fallback := np ++ " is well-adapted to the conditions of the " ++
      jsStr biome_name ++ " biome."
    ⟨⟨200, some fallback, false, none⟩,
      [Obj.set cache key ⟨some fallback, none, none, none, some "fallback/no-key", none⟩], 0⟩
  else
    match fetch with
    | FetchOutcome.httpError body => ⟨⟨500, none, false, some body⟩, [], 1⟩
    | FetchOutcome.networkThrow msg => ⟨⟨500, none, false, some msg⟩, [], 1⟩
    | FetchOutcome.success text =>
      match parse (cleanedText text) with
      | Except.error e => ⟨⟨500, none, false, some e⟩, [], 1⟩
      | Except.ok newSummary =>
        ⟨⟨200, newSummary, false, none⟩,
          [Obj.set cache key
            ⟨newSummary, scientific_name, common_name, biome_name,
              some "gemini-2.5-flash-lite", some now⟩], 1⟩

/-! ### Association-list object lemmas -/

theorem Obj.get_set_self {α : Type} (o : Obj α) (k : String) (v : α) :
    Obj.get (Obj.set o k v) k = some v := by
  induction o with
  | nil => simp [Obj.set, Obj.get]
  | cons p rest ih =>
    obtain ⟨k1, v1⟩ := p
    by_cases h : k1 = k
    · simp [Obj.set, h, Obj.get]
    · simp [Obj.set, h, Obj.get, ih]

theorem Obj.get_set_of_ne {α : Type} (o : Obj α) {k k2 : String} (v : α) (h : k2 ≠ k) :
    Obj.get (Obj.set o k v) k2 = Obj.get o k2 := by
  induction o with
  | nil => simp [Obj.set, Obj.get, Ne.symm h]
  | cons p rest ih =>
    obtain ⟨k1, v1⟩ := p
    by_cases h1 : k1 = k
    · subst h1
      simp [Obj.set, Obj.get, Ne.symm h]
    · simp [Obj.set, h1, Obj.get, ih]

theorem Obj.isSome_get_set {α : Type} (o : Obj α) (k k2 : String) (v : α)
    (h : (Obj.get o k2).isSome) : (Obj.get (Obj.set o k v) k2).isSome := by
  by_cases hk : k2 = k
  · subst hk
    simp [Obj.get_set_self]
  · rwa [Obj.get_set_of_ne o v hk]

theorem Obj.mem_keys_iff {α : Type} (o : Obj α) (k : String) :
    k ∈ Obj.keys o ↔ (Obj.get o k).isSome := by
  induction o with
  | nil => simp [Obj.keys, Obj.get]
  | cons p rest ih =>
    obtain ⟨k1, v1⟩ := p
    by_cases h : k1 = k
    · subst h
      simp [Obj.keys, Obj.get]
    · have h2 : k ≠ k1 := Ne.symm h
      rw [show Obj.keys ((k1, v1) :: rest) = k1 :: Obj.keys rest from rfl, List.mem_cons]
      simp [Obj.get, h, h2, ih]

theorem Obj.isSome_assign_left {α : Type} (s : Obj α) :
    ∀ (t : Obj α) (k : String),
      (Obj.get t k).isSome → (Obj.get (Obj.assign t s) k).isSome := by
  induction s with
  | nil => intro t k h; exact h
  | cons p rest ih =>
    intro t k h
    exact ih _ _ (Obj.isSome_get_set _ _ _ _ h)

theorem Obj.isSome_assign_right {α : Type} (s : Obj α) :
    ∀ (t : Obj α) (k : String),
      k ∈ Obj.keys s → (Obj.get (Obj.assign t s) k).isSome := by
  induction s with
  | nil => intro t k h; simp [Obj.keys] at h
  | cons p rest ih =>
    intro t k h
    rcases List.mem_cons.mp h with h1 | h1
    · refine Obj.isSome_assign_left rest _ _ ?_
      rw [h1, Obj.get_set_self]
      rfl
    · exact ih _ _ h1

/-! ### Partitioning lemmas (batch flower route) -/

/-- The cache key the batch flower route computes for a species of a
biome: `makeKey(species.scientific_name, species.common_name, biome.biome)`. -/
def speciesKey (b : BiomeData) (s : Species) : String :=
  makeKey3 s.scientific_name s.common_name (some b.biome)

theorem partSpecies_fetched (cache : Obj FlowerEntry) (b : BiomeData) :
    ∀ (l : List Species) (fs : Obj String) (k2d : Obj SpeciesCtx),
      (partSpecies cache b l fs k2d).2.2 =
        l.filter (fun s => !(flowerHit (Obj.get cache (speciesKey b s)))) := by
  intro l
  induction l with
  | nil => intro fs k2d; rfl
  | cons s rest ih =>
    intro fs k2d
    cases hh : flowerHit (Obj.get cache (speciesKey b s)) with
    | true =>
      rw [speciesKey] at hh
      simp [partSpecies, hh, ih, List.filter_cons, speciesKey]
    | false =>
      rw [speciesKey] at hh
      simp [partSpecies, hh, ih, List.filter_cons, speciesKey]

theorem partSpecies_fs_pres (cache : Obj FlowerEntry) (b : BiomeData) :
    ∀ (l : List Species) (fs : Obj String) (k2d : Obj SpeciesCtx) (k : String),
      (Obj.get fs k).isSome →
      (Obj.get (partSpecies cache b l fs k2d).1 k).isSome := by
  intro l
  induction l with
  | nil => intro fs k2d k h; exact h
  | cons s rest ih =>
    intro fs k2d k h
    cases hh : flowerHit (Obj.get cache (makeKey3 s.scientific_name s.common_name (some b.biome))) with
    | true =>
      simp only [partSpecies, hh, if_true]
      exact ih _ _ _ (Obj.isSome_get_set _ _ _ _ h)
    | false =>
      simp only [partSpecies, hh, if_false]
      exact ih _ _ _ h

theorem partSpecies_fs_hit (cache : Obj FlowerEntry) (b : BiomeData) :
    ∀ (l : List Species) (fs : Obj String) (k2d : Obj SpeciesCtx) (s : Species),
      s ∈ l → flowerHit (Obj.get cache (speciesKey b s)) = true →
      (Obj.get (partSpecies cache b l fs k2d).1 (speciesKey b s)).isSome := by
  intro l
  induction l with
  | nil => intro fs k2d s h; exact absurd h (List.not_mem_nil s)
  | cons s0 rest ih =>
    intro fs k2d s hmem hhit
    rcases List.mem_cons.mp hmem with h1 | h1
    · subst h1
      rw [speciesKey] at hhit
      simp only [partSpecies, hhit, if_true]
      refine partSpecies_fs_pres cache b rest _ _ _ ?_
      rw [speciesKey, Obj.get_set_self]
      rfl
    · cases hh : flowerHit (Obj.get cache (makeKey3 s0.scientific_name s0.common_name (some b.biome))) with
      | true =>
        simp only [partSpecies, hh, if_true]
        exact ih _ _ _ h1 hhit
      | false =>
        simp only [partSpecies, hh, if_false]
        exact ih _ _ _ h1 hhit

theorem partSpecies_k2d_src (cache : Obj FlowerEntry) (b : BiomeData) :
    ∀ (l : List Species) (fs : Obj String) (k2d : Obj SpeciesCtx) (k : String),
      (Obj.get (partSpecies cache b l fs k2d).2.1 k).isSome →
      (Obj.get k2d k).isSome ∨ ∃ s ∈ l, k = speciesKey b s := by
  intro l
  induction l with
  | nil => intro fs k2d k h; exact Or.inl h
  | cons s0 rest ih =>
    intro fs k2d k h
    have step : ∀ (fs2 : Obj String),
        (Obj.get (partSpecies cache b rest fs2
          (Obj.set k2d (makeKey3 s0.scientific_name s0.common_name (some b.biome)) (s0, b))).2.1 k).isSome →
        (Obj.get k2d k).isSome ∨ ∃ s ∈ s0 :: rest, k = speciesKey b s := by
      intro fs2 h2
      rcases ih fs2 _ k h2 with h3 | ⟨s, hs, hk⟩
      · by_cases hk0 : k = makeKey3 s0.scientific_name s0.common_name (some b.biome)
        · exact Or.inr ⟨s0, List.mem_cons_self s0 rest, by rw [hk0, speciesKey]⟩
        · rw [Obj.get_set_of_ne _ _ hk0] at h3
          exact Or.inl h3
      · exact Or.inr ⟨s, List.mem_cons_of_mem s0 hs, hk⟩
    cases hh : flowerHit (Obj.get cache (makeKey3 s0.scientific_name s0.common_name (some b.biome))) with
    | true =>
      simp only [partSpecies, hh, if_true] at h
      exact step _ h
    | false =>
      simp only [partSpecies, hh, if_false] at h
      exact step _ h

/-- The species of a biome whose keys miss the cache — the list the
partitioning step collects as `speciesToFetch` for that biome. -/
def uncachedSpecies (cache : Obj FlowerEntry) (b : BiomeData) : List Species :=
  b.species.filter (fun s => !(flowerHit (Obj.get cache (speciesKey b s))))

theorem partBiomes_fetched (cache : Obj FlowerEntry) :
    ∀ (bs : List BiomeData) (fs : Obj String) (k2d : Obj SpeciesCtx),
      (partBiomes cache bs fs k2d).2.2 =
        (bs.map (fun b => { b with species := uncachedSpecies cache b })).filter
          (fun b => !(b.species.isEmpty)) := by
  intro bs
  induction bs with
  | nil => intro fs k2d; rfl
  | cons b rest ih =>
    intro fs k2d
    have hps : (partSpecies cache b b.species fs k2d).2.2 = uncachedSpecies cache b :=
      partSpecies_fetched cache b b.species fs k2d
    simp only [partBiomes, hps, List.map_cons, List.filter_cons]
    by_cases h : (uncachedSpecies cache b).length > 0
    · have hne : (uncachedSpecies cache b).isEmpty = false := by
        cases hfe : uncachedSpecies cache b with
        | nil => rw [hfe] at h; simp at h
        | cons x xs => rfl
      simp [h, hne, ih]
    · have hfe : uncachedSpecies cache b = [] := by
        cases hfe : uncachedSpecies cache b with
        | nil => rfl
        | cons x xs => rw [hfe] at h; simp at h
      simp [h, hfe, ih]

theorem partBiomes_fs_pres (cache : Obj FlowerEntry) :
    ∀ (bs : List BiomeData) (fs : Obj String) (k2d : Obj SpeciesCtx) (k : String),
      (Obj.get fs k).isSome →
      (Obj.get (partBiomes cache bs fs k2d).1 k).isSome := by
  intro bs
  induction bs with
  | nil => intro fs k2d k h; exact h
  | cons b rest ih =>
    intro fs k2d k h
    have h1 := partSpecies_fs_pres cache b b.species fs k2d k h
    have h2 := ih (partSpecies cache b b.species fs k2d).1
      (partSpecies cache b b.species fs k2d).2.1 k h1
    simp only [partBiomes]
    by_cases hl : (partSpecies cache b b.species fs k2d).2.2.length > 0 <;> simp [hl, h2]

theorem partBiomes_fs_hit (cache : Obj FlowerEntry) :
    ∀ (bs : List BiomeData) (fs : Obj String) (k2d : Obj SpeciesCtx) (b : BiomeData) (s : Species),
      b ∈ bs → s ∈ b.species → flowerHit (Obj.get cache (speciesKey b s)) = true →
      (Obj.get (partBiomes cache bs fs k2d).1 (speciesKey b s)).isSome := by
  intro bs
  induction bs with
  | nil => intro fs k2d b s h; exact absurd h (List.not_mem_nil b)
  | cons b0 rest ih =>
    intro fs k2d b s hmem hs hhit
    have main : (Obj.get (partBiomes cache (b0 :: rest) fs k2d).1 (speciesKey b s)).isSome := by
      rcases List.mem_cons.mp hmem with h1 | h1
      · subst h1
        have h2 := partSpecies_fs_hit cache b b.species fs k2d s hs hhit
        have h3 := partBiomes_fs_pres cache rest (partSpecies cache b b.species fs k2d).1
          (partSpecies cache b b.species fs k2d).2.1 (speciesKey b s) h2
        simp only [partBiomes]
        by_cases hl : (partSpecies cache b b.species fs k2d).2.2.length > 0 <;> simp [hl, h3]
      · have h3 := ih (partSpecies cache b0 b0.species fs k2d).1
          (partSpecies cache b0 b0.species fs k2d).2.1 b s h1 hs hhit
        simp only [partBiomes]
        by_cases hl : (partSpecies cache b0 b0.species fs k2d).2.2.length > 0 <;> simp [hl, h3]
    exact main

theorem partBiomes_k2d_src (cache : Obj FlowerEntry) :
    ∀ (bs : List BiomeData) (fs : Obj String) (k2d : Obj SpeciesCtx) (k : String),
      (Obj.get (partBiomes cache bs fs k2d).2.1 k).isSome →
      (Obj.get k2d k).isSome ∨ ∃ b ∈ bs, ∃ s ∈ b.species, k = speciesKey b s := by
  intro bs
  induction bs with
  | nil => intro fs k2d k h; exact Or.inl h
  | cons b0 rest ih =>
    intro fs k2d k h
    have hmid : (Obj.get (partBiomes cache rest (partSpecies cache b0 b0.species fs k2d).1
        (partSpecies cache b0 b0.species fs k2d).2.1).2.1 k).isSome := by
      simp only [partBiomes] at h
      by_cases hl : (partSpecies cache b0 b0.species fs k2d).2.2.length > 0
      · simpa [hl] using h
      · simpa [hl] using h
    rcases ih _ _ k hmid with h1 | ⟨b, hb, s, hs, hk⟩
    · rcases partSpecies_k2d_src cache b0 b0.species fs k2d k h1 with h2 | ⟨s, hs, hk⟩
      · exact Or.inl h2
      · exact Or.inr ⟨b0, List.mem_cons_self b0 rest, s, hs, hk⟩
    · exact Or.inr ⟨b, List.mem_cons_of_mem b0 hb, s, hs, hk⟩

/-! ### Fallback-fill lemmas (batch flower route) -/

theorem fillSpecies_fs_pres (mk : Species → BiomeData → String) (tag now : String) (b : BiomeData) :
    ∀ (l : List Species) (fs : Obj String) (c : Obj FlowerEntry) (k : String),
      (Obj.get fs k).isSome →
      (Obj.get (fillSpecies mk tag now b l fs c).1 k).isSome := by
  intro l
  induction l with
  | nil => intro fs c k h; exact h
  | cons s rest ih =>
    intro fs c k h
    exact ih _ _ _ (Obj.isSome_get_set _ _ _ _ h)

theorem fillSpecies_fs_mem (mk : Species → BiomeData → String) (tag now : String) (b : BiomeData) :
    ∀ (l : List Species) (fs : Obj String) (c : Obj FlowerEntry) (s : Species),
      s ∈ l →
      (Obj.get (fillSpecies mk tag now b l fs c).1 (speciesKey b s)).isSome := by
  intro l
  induction l with
  | nil => intro fs c s h; exact absurd h (List.not_mem_nil s)
  | cons s0 rest ih =>
    intro fs c s hmem
    rcases List.mem_cons.mp hmem with h1 | h1
    · subst h1
      refine fillSpecies_fs_pres mk tag now b rest _ _ _ ?_
      rw [speciesKey, Obj.get_set_self]
      rfl
    · exact ih _ _ _ h1

theorem fillBiomes_fs_pres (mk : Species → BiomeData → String) (tag now : String) :
    ∀ (bs : List BiomeData) (fs : Obj String) (c : Obj FlowerEntry) (k : String),
      (Obj.get fs k).isSome →
      (Obj.get (fillBiomes mk tag now bs fs c).1 k).isSome := by
  intro bs
  induction bs with
  | nil => intro fs c k h; exact h
  | cons b rest ih =>
    intro fs c k h
    exact ih _ _ _ (fillSpecies_fs_pres mk tag now b b.species fs c k h)

theorem fillBiomes_fs_mem (mk : Species → BiomeData → String) (tag now : String) :
    ∀ (bs : List BiomeData) (fs : Obj String) (c : Obj FlowerEntry) (b : BiomeData) (s : Species),
      b ∈ bs → s ∈ b.species →
      (Obj.get (fillBiomes mk tag now bs fs c).1 (speciesKey b s)).isSome := by
  intro bs
  induction bs with
  | nil => intro fs c b s h; exact absurd h (List.not_mem_nil b)
  | cons b0 rest ih =>
    intro fs c b s hmem hs
    rcases List.mem_cons.mp hmem with h1 | h1
    · subst h1
      exact fillBiomes_fs_pres mk tag now rest _ _ _
        (fillSpecies_fs_mem mk tag now b b.species fs c s hs)
    · exact ih _ _ _ _ h1 hs

/-! ### Merge lemma (batch flower route) -/

theorem mergeSummaries_get_of_not_in_map (k2d : Obj SpeciesCtx) (m now : String) :
    ∀ (ns : List (String × String)) (c : Obj FlowerEntry) (k : String),
      Obj.get k2d k = none →
      Obj.get (mergeSummaries k2d m now ns c) k = Obj.get c k := by
  intro ns
  induction ns with
  | nil => intro c k h; rfl
  | cons p rest ih =>
    intro c k h
    obtain ⟨key, v⟩ := p
    cases hd : Obj.get k2d key with
    | none => simp only [mergeSummaries, hd]; exact ih _ _ h
    | some d =>
      have hne : k ≠ key := by
        intro he
        rw [he, hd] at h
        exact Option.noConfusion h
      simp only [mergeSummaries, hd]
      rw [ih _ _ h, Obj.get_set_of_ne _ _ hne]

/-- Every entity of a batch request is, after partitioning, either already
resolved in `finalSummaries` or present (with an unchanged key) in some
biome of the needs-fetch group. -/
theorem part_dichotomy (cache : Obj FlowerEntry) (requestData : List BiomeData)
    (b : BiomeData) (s : Species) (hb : b ∈ requestData) (hs : s ∈ b.species) :
    (Obj.get (partBiomes cache requestData [] []).1 (speciesKey b s)).isSome ∨
    (∃ b2, b2 ∈ (partBiomes cache requestData [] []).2.2 ∧ s ∈ b2.species ∧
      speciesKey b2 s = speciesKey b s) := by
  cases hh : flowerHit (Obj.get cache (speciesKey b s)) with
  | true => exact Or.inl (partBiomes_fs_hit cache requestData [] [] b s hb hs hh)
  | false =>
    have hsmem : s ∈ uncachedSpecies cache b := by
      refine List.mem_filter.mpr ⟨hs, ?_⟩
      simp [hh]
    refine Or.inr ⟨{ b with species := uncachedSpecies cache b }, ?_, hsmem, rfl⟩
    rw [partBiomes_fetched]
    refine List.mem_filter.mpr ⟨List.mem_map.mpr ⟨b, hb, rfl⟩, ?_⟩
    cases hfe : uncachedSpecies cache b with
    | nil => rw [hfe] at hsmem; exact absurd hsmem (List.not_mem_nil s)
    | cons x xs => simp [hfe]

/-! ### Cached-fill, fallback and merge lemmas (batch biome route) -/

theorem biomeCachedFill_pres (cache : Obj BiomeEntry) :
    ∀ (bs : List BBiome) (fs : Obj String) (k : String),
      (Obj.get fs k).isSome →
      (Obj.get (biomeCachedFill cache bs fs) k).isSome := by
  intro bs
  induction bs with
  | nil => intro fs k h; exact h
  | cons b rest ih =>
    intro fs k h
    cases hh : biomeHit (Obj.get cache b.biome) with
    | true =>
      simp only [biomeCachedFill, hh, if_true]
      exact ih _ _ (Obj.isSome_get_set _ _ _ _ h)
    | false =>
      simp only [biomeCachedFill, hh, if_false]
      exact ih _ _ h

theorem biomeCachedFill_hit (cache : Obj BiomeEntry) :
    ∀ (bs : List BBiome) (fs : Obj String) (b : BBiome),
      b ∈ bs → biomeHit (Obj.get cache b.biome) = true →
      (Obj.get (biomeCachedFill cache bs fs) b.biome).isSome := by
  intro bs
  induction bs with
  | nil => intro fs b h; exact absurd h (List.not_mem_nil b)
  | cons b0 rest ih =>
    intro fs b hmem hhit
    rcases List.mem_cons.mp hmem with h1 | h1
    · subst h1
      simp only [biomeCachedFill, hhit, if_true]
      refine biomeCachedFill_pres cache rest _ _ ?_
      rw [Obj.get_set_self]
      rfl
    · cases hh : biomeHit (Obj.get cache b0.biome) with
      | true =>
        simp only [biomeCachedFill, hh, if_true]
        exact ih _ _ h1 hhit
      | false =>
        simp only [biomeCachedFill, hh, if_false]
        exact ih _ _ h1 hhit

theorem biomeFillNoKey_pres :
    ∀ (bs : List BBiome) (fs : Obj String) (c : Obj BiomeEntry) (k : String),
      (Obj.get fs k).isSome →
      (Obj.get (biomeFillNoKey bs fs c).1 k).isSome := by
  intro bs
  induction bs with
  | nil => intro fs c k h; exact h
  | cons b rest ih =>
    intro fs c k h
    exact ih _ _ _ (Obj.isSome_get_set _ _ _ _ h)

theorem biomeFillNoKey_mem :
    ∀ (bs : List BBiome) (fs : Obj String) (c : Obj BiomeEntry) (b : BBiome),
      b ∈ bs →
      (Obj.get (biomeFillNoKey bs fs c).1 b.biome).isSome := by
  intro bs
  induction bs with
  | nil => intro fs c b h; exact absurd h (List.not_mem_nil b)
  | cons b0 rest ih =>
    intro fs c b hmem
    rcases List.mem_cons.mp hmem with h1 | h1
    · subst h1
      refine biomeFillNoKey_pres rest _ _ _ ?_
      rw [Obj.get_set_self]
      rfl
    · exact ih _ _ _ h1

theorem biomeMerge_pres :
    ∀ (ns : List (String × String)) (c : Obj BiomeEntry) (k : String),
      (Obj.get c k).isSome →
      (Obj.get (biomeMerge ns c) k).isSome := by
  intro ns
  induction ns with
  | nil => intro c k h; exact h
  | cons p rest ih =>
    intro c k h
    obtain ⟨k1, v1⟩ := p
    exact ih _ _ (Obj.isSome_get_set _ _ _ _ h)

theorem biomeMerge_mem :
    ∀ (ns : List (String × String)) (c : Obj BiomeEntry) (k : String),
      k ∈ ns.map Prod.fst →
      (Obj.get (biomeMerge ns c) k).isSome := by
  intro ns
  induction ns with
  | nil => intro c k h; simp at h
  | cons p rest ih =>
    intro c k h
    obtain ⟨k1, v1⟩ := p
    rcases List.mem_cons.mp h with h1 | h1
    · refine biomeMerge_pres rest _ _ ?_
      rw [h1, Obj.get_set_self]
      rfl
    · exact ih _ _ h1

/-! ### Concrete fixtures used by counterexamples and witnesses -/

/-- A concrete species record. -/
def cexSpecies : Species := ⟨some "Rosa", some "Rose"⟩

/-- A concrete 1-species biome record. -/
def cexBiome : BiomeData := ⟨"Cfa", "Humid subtropical", ⟨20, 100, 15⟩, [cexSpecies], []⟩

/-- A concrete biome record listing the same species twice. -/
def cexBiomeDup : BiomeData := ⟨"Cfa", "Humid subtropical", ⟨20, 100, 15⟩, [cexSpecies, cexSpecies], []⟩

/-- A fetch behaviour whose response text is the empty JSON object. -/
def cexFetchEmptyObj : String → FetchOutcome := fun _ => FetchOutcome.success "\x7b\x7d"

/-- A `JSON.parse` behaviour that parses the empty JSON object to the
empty record and rejects everything else. -/
def cexParseEmptyObj : String → Except String (Obj String) :=
  fun s => if s = "\x7b\x7d" then Except.ok [] else Except.error "unexpected"

/-- A `JSON.parse` behaviour returning a structured result with a single
key that no request entity normalizes to. -/
def cexParseBogus : String → Except String (Obj String) :=
  fun _ => Except.ok [("bogus::zz", "y")]

/-- A cache entry with a non-empty summary. -/
def cexHitEntry : FlowerEntry := ⟨some "X", none, none, none, none, none⟩

/-- A flower cache containing the key of `cexSpecies` in `cexBiome`. -/
def cexFlowerCache : Obj FlowerEntry := [("rosa::cfa", cexHitEntry)]

/-- A concrete biome-summary request record. -/
def cexBBiome : BBiome := ⟨"Cfa", "Humid subtropical", ⟨20, 100, 15⟩, [⟨"Rose"⟩], [⟨"Aphid"⟩]⟩

/-- A biome cache containing `cexBBiome`'s code with a non-empty summary. -/
def cexBiomeCache : Obj BiomeEntry := [("Cfa", ⟨some "X", none⟩)]

/-! ### Claim C1: total coverage -/

/-- C1 counterexample: a 1-entity batch whose upstream call succeeds
partially — the response parses as a structured object but misses the
requested key (here the empty object `\x7b\x7d`) — is answered with an empty
summaries mapping: the entity is left unresolved and no fallback is
synthesized, so the mapping does not contain one entry per input entity. -/
theorem flower_partial_success_cex :
    cexBiome ∈ [cexBiome] ∧ cexSpecies ∈ cexBiome.species ∧
    (flowerPost (some "k") [cexBiome] [] cexFetchEmptyObj cexParseEmptyObj "t").response.status = 200 ∧
    (flowerPost (some "k") [cexBiome] [] cexFetchEmptyObj cexParseEmptyObj "t").response.summaries = [] ∧
    Obj.get (flowerPost (some "k") [cexBiome] [] cexFetchEmptyObj
      cexParseEmptyObj "t").response.summaries (speciesKey cexBiome cexSpecies) = none := by
  decide

/-- C1 (amended): in the batch flower route, the returned summaries mapping
contains an entry for every input entity whenever the API key is absent,
the upstream generation fails entirely, or the parsed structured result
contains every key of the needs-fetch group (this also covers the
fully-cached short circuit); a partial structured result can leave
entities unresolved.  In the batch biome route the same coverage holds on
the no-key path (upstream failures there surface as an error response
instead). -/
theorem flower_total_coverage_amended :
    (∀ (apiKey : Option String) (requestData : List BiomeData) (cache : Obj FlowerEntry)
        (fetch : String → FetchOutcome) (parse : String → Except String (Obj String))
        (now : String) (b : BiomeData) (s : Species),
      b ∈ requestData → s ∈ b.species →
      (isFalsy apiKey = true ∨
        (∀ (ns : Obj String) (m : String),
          (tryModels parse fetch flowerModels none).1 = some (ns, m) →
          ∀ b2 ∈ (partBiomes cache requestData [] []).2.2, ∀ s2 ∈ b2.species,
            (Obj.get ns (speciesKey b2 s2)).isSome)) →
      (Obj.get (flowerPost apiKey requestData cache fetch parse now).response.summaries
        (speciesKey b s)).isSome) ∧
    (∀ (apiKey : Option String) (requestData : List BBiome) (cache : Obj BiomeEntry)
        (fetch : FetchOutcome) (parse : String → Except String (Obj String)) (b : BBiome),
      isFalsy apiKey = true → b ∈ requestData →
      (Obj.get (biomePost apiKey requestData cache fetch parse).response.summaries
        b.biome).isSome) := by
  constructor
  · intro apiKey requestData cache fetch parse now b s hb hs hcond
    by_cases h0 : (partBiomes cache requestData [] []).2.2.length = 0
    · have hcov : (Obj.get (partBiomes cache requestData [] []).1 (speciesKey b s)).isSome := by
        rcases part_dichotomy cache requestData b s hb hs with h | ⟨b2, hb2, _, _⟩
        · exact h
        · rw [List.length_eq_zero.mp h0] at hb2
          exact absurd hb2 (List.not_mem_nil b2)
      simp only [flowerPost]
      rw [if_pos h0]
      exact hcov
    · simp only [flowerPost]
      rw [if_neg h0]
      cases hkey : isFalsy apiKey with
      | true =>
        rw [if_pos rfl]
        rcases part_dichotomy cache requestData b s hb hs with h | ⟨b2, hb2, hs2, hkeq⟩
        · exact fillBiomes_fs_pres _ _ _ _ _ _ _ h
        · have h2 := fillBiomes_fs_mem noKeySummary "fallback/no-key" now
            (partBiomes cache requestData [] []).2.2
            (partBiomes cache requestData [] []).1 cache b2 s hb2 hs2
          rw [hkeq] at h2
          exact h2
      | false =>
        rw [if_neg Bool.false_ne_true]
        rcases hg : (tryModels parse fetch flowerModels none).1 with _ | ⟨ns, m⟩
        · simp only [hg]
          rcases part_dichotomy cache requestData b s hb hs with h | ⟨b2, hb2, hs2, hkeq⟩
          · exact fillBiomes_fs_pres _ _ _ _ _ _ _ h
          · have h2 := fillBiomes_fs_mem genFailSummary "fallback/generator-failed" now
              (partBiomes cache requestData [] []).2.2
              (partBiomes cache requestData [] []).1 cache b2 s hb2 hs2
            rw [hkeq] at h2
            exact h2
        · simp only [hg]
          rcases part_dichotomy cache requestData b s hb hs with h | ⟨b2, hb2, hs2, hkeq⟩
          · exact Obj.isSome_assign_left ns _ _ h
          · rcases hcond with hfal | hc
            · rw [hkey] at hfal
              exact absurd hfal (by simp)
            · have h2 := hc ns m hg b2 hb2 s hs2
              have h3 := Obj.isSome_assign_right ns (partBiomes cache requestData [] []).1
                (speciesKey b2 s) ((Obj.mem_keys_iff ns (speciesKey b2 s)).mpr h2)
              rw [hkeq] at h3
              exact h3
  · intro apiKey requestData cache fetch parse b hkey hb
    simp only [biomePost]
    by_cases h0 : (requestData.filter (fun b2 => !(biomeHit (Obj.get cache b2.biome)))).length = 0
    · rw [if_pos h0]
      have hnil := List.length_eq_zero.mp h0
      have hhit : biomeHit (Obj.get cache b.biome) = true := by
        by_contra hno
        have hmem : b ∈ requestData.filter (fun b2 => !(biomeHit (Obj.get cache b2.biome))) := by
          refine List.mem_filter.mpr ⟨hb, ?_⟩
          simp [Bool.eq_false_iff.mpr hno]
        rw [hnil] at hmem
        exact absurd hmem (List.not_mem_nil b)
      exact biomeCachedFill_hit cache requestData [] b hb hhit
    · rw [if_neg h0, if_pos hkey]
      cases hh : biomeHit (Obj.get cache b.biome) with
      | true =>
        exact biomeFillNoKey_pres _ _ _ _ (biomeCachedFill_hit cache requestData [] b hb hh)
      | false =>
        refine biomeFillNoKey_mem _ _ _ b (List.mem_filter.mpr ⟨hb, ?_⟩)
        simp [hh]

/-- C1 witness: a no-API-key run of the amended coverage theorem on a
concrete 1-entity batch. -/
theorem flower_total_coverage_amended_witness :
    (Obj.get (flowerPost none [cexBiome] [] cexFetchEmptyObj cexParseEmptyObj "t").response.summaries
      (speciesKey cexBiome cexSpecies)).isSome :=
  flower_total_coverage_amended.1 none [cexBiome] [] cexFetchEmptyObj cexParseEmptyObj "t"
    cexBiome cexSpecies (by decide) (by decide) (Or.inl (by decide))

/-! ### Claim C3: error recovery -/

/-- C3 counterexample: in the batch biome route an upstream HTTP error is
thrown and caught by the outer handler, which answers with a status-500
error body and no result mapping — the failure escapes the batch
operation instead of being recovered by the fallback synthesizer. -/
theorem biome_http_error_escapes_cex :
    biomePost (some "k") [cexBBiome] [] (FetchOutcome.httpError "upstream 503") cexParseEmptyObj =
      ⟨⟨500, [], none, some "upstream 503"⟩, [], 1⟩ := by decide

/-- C3 (amended): the batch flower route never answers with an error —
every run, whatever the fetch and parse outcomes, returns status 200; the
batch biome route recovers only the missing-API-key case locally, while an
upstream HTTP error on the generation path escapes as a status-500 error
response. -/
theorem error_recovery_amended :
    (∀ (apiKey : Option String) (requestData : List BiomeData) (cache : Obj FlowerEntry)
        (fetch : String → FetchOutcome) (parse : String → Except String (Obj String))
        (now : String),
      (flowerPost apiKey requestData cache fetch parse now).response.status = 200) ∧
    (∀ (apiKey : Option String) (requestData : List BBiome) (cache : Obj BiomeEntry)
        (fetch : FetchOutcome) (parse : String → Except String (Obj String)),
      isFalsy apiKey = true →
      (biomePost apiKey requestData cache fetch parse).response.status = 200) ∧
    (∀ (k : String) (requestData : List BBiome) (cache : Obj BiomeEntry)
        (parse : String → Except String (Obj String)) (msg : String),
      k ≠ "" →
      (requestData.filter (fun b => !(biomeHit (Obj.get cache b.biome)))).length ≠ 0 →
      biomePost (some k) requestData cache (FetchOutcome.httpError msg) parse =
        ⟨⟨500, [], none, some msg⟩, [], 1⟩) := by
  refine ⟨?_, ?_, ?_⟩
  · intro apiKey requestData cache fetch parse now
    simp only [flowerPost]
    by_cases h0 : (partBiomes cache requestData [] []).2.2.length = 0
    · rw [if_pos h0]
    · rw [if_neg h0]
      cases hkey : isFalsy apiKey with
      | true => rw [if_pos rfl]
      | false =>
        rw [if_neg Bool.false_ne_true]
        rcases hg : (tryModels parse fetch flowerModels none).1 with _ | ⟨ns, m⟩ <;>
          simp only [hg]
  · intro apiKey requestData cache fetch parse hkey
    simp only [biomePost]
    by_cases h0 : (requestData.filter (fun b2 => !(biomeHit (Obj.get cache b2.biome)))).length = 0
    · rw [if_pos h0]
    · rw [if_neg h0, if_pos hkey]
  · intro k requestData cache parse msg hk h0
    have hfal : ¬(isFalsy (some k) = true) := by simp [isFalsy, hk]
    simp only [biomePost]
    rw [if_neg h0, if_neg hfal]

/-- C3 witness: the amended recovery theorem applied to concrete runs of
each conjunct. -/
theorem error_recovery_amended_witness :
    (flowerPost (some "k") [cexBiome] [] cexFetchEmptyObj cexParseEmptyObj "t").response.status = 200 ∧
    (biomePost none [cexBBiome] [] (FetchOutcome.httpError "x") cexParseEmptyObj).response.status = 200 ∧
    biomePost (some "k") [cexBBiome] [] (FetchOutcome.httpError "boom") cexParseEmptyObj =
      ⟨⟨500, [], none, some "boom"⟩, [], 1⟩ :=
  ⟨error_recovery_amended.1 (some "k") [cexBiome] [] cexFetchEmptyObj cexParseEmptyObj "t",
   error_recovery_amended.2.1 none [cexBBiome] [] (FetchOutcome.httpError "x") cexParseEmptyObj rfl,
   error_recovery_amended.2.2 "k" [cexBBiome] [] cexParseEmptyObj "boom" (by decide) (by decide)⟩

/-! ### Claim C4: at-most-once generation per key -/

/-- C4 counterexample: a batch repeating one entity (two records that
normalize to the same cache key, here two identical uncached species
records in one biome) yields a needs-fetch group — the group serialized
into the generation prompt — containing that entity twice, not once. -/
theorem flower_duplicate_entity_cex :
    cexBiomeDup.species = [cexSpecies, cexSpecies] ∧
    ((partBiomes [] [cexBiomeDup] [] []).2.2.map
      (fun b => b.species.count cexSpecies)).sum = 2 := by decide

/-- C4 (amended): the needs-fetch group serialized into the generation
prompt is exactly the request with each biome's species list filtered to
the cache-missing keys (biomes left with no such species are dropped):
occurrences whose key is cached are omitted, but a repeated uncached
entity is kept once per occurrence, so deduplication happens only against
the cache, not within the batch. -/
theorem flower_payload_is_uncached_filter :
    ∀ (cache : Obj FlowerEntry) (requestData : List BiomeData)
      (fs : Obj String) (k2d : Obj SpeciesCtx),
      (partBiomes cache requestData fs k2d).2.2 =
        (requestData.map (fun b => { b with species := uncachedSpecies cache b })).filter
          (fun b => !(b.species.isEmpty)) :=
  fun cache requestData fs k2d => partBiomes_fetched cache requestData fs k2d

/-! ### Claim C5: cache short-circuit -/

/-- C5: when every entity of the batch already has a cache entry with a
non-empty summary, both batch routes short-circuit: the response carries
the provenance tag `"cache"` and the partition-collected summaries, no
network call is made, and the cache store is not rewritten. -/
theorem cache_short_circuit :
    (∀ (apiKey : Option String) (requestData : List BiomeData) (cache : Obj FlowerEntry)
        (fetch : String → FetchOutcome) (parse : String → Except String (Obj String))
        (now : String),
      (∀ b ∈ requestData, ∀ s ∈ b.species, flowerHit (Obj.get cache (speciesKey b s)) = true) →
      flowerPost apiKey requestData cache fetch parse now =
        ⟨⟨200, (partBiomes cache requestData [] []).1, some "cache", none⟩, [], 0⟩) ∧
    (∀ (apiKey : Option String) (requestData : List BBiome) (cache : Obj BiomeEntry)
        (fetch : FetchOutcome) (parse : String → Except String (Obj String)),
      (∀ b ∈ requestData, biomeHit (Obj.get cache b.biome) = true) →
      biomePost apiKey requestData cache fetch parse =
        ⟨⟨200, biomeCachedFill cache requestData [], some "cache", none⟩, [], 0⟩) := by
  constructor
  · intro apiKey requestData cache fetch parse now hall
    have h22 : (partBiomes cache requestData [] []).2.2 = [] := by
      rw [partBiomes_fetched]
      refine List.filter_eq_nil_iff.mpr ?_
      intro x hx
      rcases List.mem_map.mp hx with ⟨b, hb, rfl⟩
      have hemp : uncachedSpecies cache b = [] := by
        refine List.filter_eq_nil_iff.mpr ?_
        intro s hs
        simp [hall b hb s hs]
      simp [hemp]
    simp only [flowerPost]
    rw [if_pos (by rw [h22]; rfl)]
  · intro apiKey requestData cache fetch parse hall
    have h0 : requestData.filter (fun b => !(biomeHit (Obj.get cache b.biome))) = [] := by
      refine List.filter_eq_nil_iff.mpr ?_
      intro b hb
      simp [hall b hb]
    simp only [biomePost]
    rw [if_pos (by rw [h0]; rfl)]

/-- C5 witness: a concrete fully-cached 1-entity batch served from cache. -/
theorem cache_short_circuit_witness :
    flowerPost (some "k") [cexBiome] cexFlowerCache cexFetchEmptyObj cexParseEmptyObj "t" =
      ⟨⟨200, (partBiomes cexFlowerCache [cexBiome] [] []).1, some "cache", none⟩, [], 0⟩ :=
  cache_short_circuit.1 (some "k") [cexBiome] cexFlowerCache cexFetchEmptyObj cexParseEmptyObj "t"
    (by decide)

/-! ### Claim C6: unexpected keys in the structured result -/

/-- C6 counterexample: an upstream structured result containing a key
absent from the side-table (no request entity normalizes to
`"bogus::zz"`) is not fully ignored: `Object.assign` copies it into the
returned summaries mapping, even though the cache write skips it (the
single write here is the unchanged empty cache). -/
theorem flower_unexpected_key_cex :
    Obj.get (flowerPost (some "k") [cexBiome] [] cexFetchEmptyObj
      cexParseBogus "t").response.summaries "bogus::zz" = some "y" ∧
    (flowerPost (some "k") [cexBiome] [] cexFetchEmptyObj cexParseBogus "t").cacheWrites = [[]] := by
  decide

/-- C6 (amended): during merging, a key of the structured result that is
absent from the side-table leaves the cache untouched in the flower
route, but it is still copied into the final result mapping by
`Object.assign`; the biome route has no side-table filter at all and
writes every result key to its cache. -/
theorem unexpected_keys_amended :
    (∀ (k2d : Obj SpeciesCtx) (m now : String) (ns : List (String × String))
        (c : Obj FlowerEntry) (k : String),
      Obj.get k2d k = none →
      Obj.get (mergeSummaries k2d m now ns c) k = Obj.get c k) ∧
    (∀ (fs ns : Obj String) (k : String), k ∈ Obj.keys ns →
      (Obj.get (Obj.assign fs ns) k).isSome) ∧
    (∀ (ns : List (String × String)) (c : Obj BiomeEntry) (k : String),
      k ∈ ns.map Prod.fst → (Obj.get (biomeMerge ns c) k).isSome) :=
  ⟨fun k2d m now ns c k h => mergeSummaries_get_of_not_in_map k2d m now ns c k h,
   fun fs ns k h => Obj.isSome_assign_right ns fs k h,
   fun ns c k h => biomeMerge_mem ns c k h⟩

/-- C6 witness: the amended merge behaviour at a concrete unexpected key. -/
theorem unexpected_keys_amended_witness :
    Obj.get (mergeSummaries [] "m" "t" [("bogus::zz", "y")] []) "bogus::zz" =
      Obj.get ([] : Obj FlowerEntry) "bogus::zz" ∧
    (Obj.get (Obj.assign ([] : Obj String) [("bogus::zz", "y")]) "bogus::zz").isSome ∧
    (Obj.get (biomeMerge [("bogus::zz", "y")] []) "bogus::zz").isSome :=
  ⟨unexpected_keys_amended.1 [] "m" "t" [("bogus::zz", "y")] [] "bogus::zz" rfl,
   unexpected_keys_amended.2.1 [] [("bogus::zz", "y")] "bogus::zz" (by decide),
   unexpected_keys_amended.2.2 [("bogus::zz", "y")] [] "bogus::zz" (by decide)⟩

/-! ### Claim C9: invalid single-entity requests -/

/-- C9 counterexample: the single-entity flower route performs no identity
validation — a request with every identity field missing is not rejected:
it is served with a synthesized fallback sentence (status 200) and the
cache store is written. -/
theorem single_flower_no_validation_cex :
    (flowerSinglePost none none none none [] (FetchOutcome.success "")
      (fun _ => Except.error "x") "t").response =
      ⟨200, some "This plant is well-adapted to the conditions of the undefined biome.",
        false, none⟩ ∧
    (flowerSinglePost none none none none [] (FetchOutcome.success "")
      (fun _ => Except.error "x") "t").cacheWrites.length = 1 := by decide

/-- C9 (amended): the pest single-entity route rejects a request missing
(or carrying an empty) `pest_name` or `biome_name` immediately with a
status-400 `InvalidRequest` error, making no generation attempt, no
fallback synthesis and no cache write; the flower single-entity route
performs no such validation and serves the request with `"unknown"`
substituted into the key. -/
theorem pest_invalid_request_amended :
    ∀ (apiKey pest_name biome_name : Option String) (cache : Obj PestEntry)
      (fetch : FetchOutcome) (parse : String → Except String (Option String)) (now : String),
      (isFalsy pest_name = true ∨ isFalsy biome_name = true) →
      pestPost apiKey pest_name biome_name cache fetch parse now =
        ⟨⟨400, none, false, some "Missing pest_name or biome_name"⟩, [], 0⟩ := by
  intro apiKey pest_name biome_name cache fetch parse now h
  have hcond : (isFalsy pest_name || isFalsy biome_name) = true := by
    rcases h with h | h <;> simp [h]
  simp only [pestPost]
  rw [if_pos hcond]

/-- C9 witness: a concrete pest request with a missing name rejected. -/
theorem pest_invalid_request_amended_witness :
    pestPost none none (some "Cfa") [] (FetchOutcome.success "")
      (fun _ => Except.error "x") "t" =
      ⟨⟨400, none, false, some "Missing pest_name or biome_name"⟩, [], 0⟩ :=
  pest_invalid_request_amended none none (some "Cfa") [] (FetchOutcome.success "")
    (fun _ => Except.error "x") "t" (Or.inl rfl)

/-! ### Claim C10: cache writes only for request keys -/

/-- C10: a key whose cache value is changed by the batch flower merge step
is necessarily present in the side-table built during partitioning, and
hence corresponds to an entity of the current request — even though the
structured result itself is copied into the result mapping unfiltered. -/
theorem flower_cache_writes_only_request_keys :
    ∀ (cache : Obj FlowerEntry) (requestData : List BiomeData)
      (ns : List (String × String)) (m now : String) (k : String),
      Obj.get (mergeSummaries (partBiomes cache requestData [] []).2.1 m now ns cache) k ≠
        Obj.get cache k →
      ∃ b ∈ requestData, ∃ s ∈ b.species, k = speciesKey b s := by
  intro cache requestData ns m now k h
  have h1 : (Obj.get (partBiomes cache requestData [] []).2.1 k).isSome := by
    by_contra hno
    exact h (mergeSummaries_get_of_not_in_map _ m now ns cache k
      (Option.not_isSome_iff_eq_none.mp hno))
  rcases partBiomes_k2d_src cache requestData [] [] k h1 with h2 | h2
  · exact absurd h2 (by simp [Obj.get])
  · exact h2

/-- C10 witness: a concrete merged write whose key is traced back to the
request entity producing it. -/
theorem flower_cache_writes_only_request_keys_witness :
    Obj.get (mergeSummaries (partBiomes [] [cexBiome] [] []).2.1 "m" "t"
        [("rosa::cfa", "x")] []) "rosa::cfa" ≠ Obj.get ([] : Obj FlowerEntry) "rosa::cfa" ∧
    ∃ b ∈ [cexBiome], ∃ s ∈ b.species, "rosa::cfa" = speciesKey b s :=
  ⟨by decide,
   flower_cache_writes_only_request_keys [] [cexBiome] [("rosa::cfa", "x")] "m" "t" "rosa::cfa"
     (by decide)⟩

end PlantPhenology
